import Mathlib

/-!
Verification development for the tkestack volume-decorator controller.

The definitions below are a shallow embedding of the Go sources:
  * `pkg/apis/storage/v1/types.go` (PVCR data model),
  * `pkg/volume/manager.go` (`getPVCStatus`, `manager.Attach`),
  * `pkg/volume/volume.go` (`blockVolumeAvailable`),
  * `pkg/volume/util.go` (`parseAddress`, `sameWorkload`),
  * `pkg/volume/ceph.go` (`listRBDWatchers` / `listRBDLockers` host loop),
  * `pkg/manager/controller.go` (`updatePVCStatus`, `replacePVCStatus`),
  * `pkg/manager/workload_recycler.go` (`workloadRecycler.syncPVCR`),
  * `pkg/workload/job.go`, `pkg/workload/tapp.go`, `pkg/workload/util.go`
    (admission `Handle` of the Job and TApp adapters).

Strings stay strings, machine integers become `Int` (no arithmetic that could
overflow is performed), nullable pointers become `Option`, and fallible code
returns `Option`/`Except`.
-/

namespace VolumeDecorator

/-- Constants of `PersistentVolumeClaimStatus` from `pkg/apis/storage/v1/types.go`. -/
inductive ClaimStatus
  | unknown
  | creating
  | expanding
  | available
  | inUse
  | lost
  | deleting
deriving DecidableEq, Repr

/-- The PVC phase (`corev1.PersistentVolumeClaimPhase`).  The Go value is a
string; the constants used by the code are `Pending`, `Bound` and `Lost`, and
`other` stands for any further string value (the `switch` in `getPVCStatus`
has no case for those). -/
inductive ClaimPhase
  | pending
  | bound
  | lost
  | other
deriving DecidableEq, Repr

/-- Values of `corev1.ConditionStatus`: `True`, `False` or `Unknown`. -/
inductive ConditionStatus
  | ctrue
  | cfalse
  | cunknown
deriving DecidableEq, Repr

/-- PVC condition types: the two resize conditions consulted by
`getPVCStatus` plus `other` for any further string value. -/
inductive PVCConditionType
  | resizing
  | fileSystemResizePending
  | other
deriving DecidableEq, Repr

/-- One entry of `pvc.Status.Conditions`. -/
structure PVCCondition where
  condType : PVCConditionType
  status : ConditionStatus
deriving DecidableEq, Repr

/-- The attributes of a `corev1.PersistentVolumeClaim` consumed by the code:
deletion timestamp, phase and condition list. -/
structure PVC where
  deletionTimestamp : Option Nat
  phase : ClaimPhase
  conditions : List PVCCondition
deriving DecidableEq, Repr

/-- A `corev1.PersistentVolume`; `getPVCStatus` only tests it against `nil`,
so a name is all we keep. -/
structure PV where
  name : String
deriving DecidableEq, Repr

/-- Embedding of `corev1.ObjectReference` with the fields printed by its generated
`String()` method. -/
structure ObjectReference where
  apiVersion : String
  kind : String
  ns : String
  name : String
  uid : String
  resourceVersion : String
  fieldPath : String
deriving DecidableEq, Repr

/-- The generated `ObjectReference.String()` rendering used by
`sameWorkload` (all fields are printed, `UID` included). -/
def ObjectReference.refString (r : ObjectReference) : String :=
  "&ObjectReference\x7bKind:" ++ r.kind ++ ",Namespace:" ++ r.ns ++
    ",Name:" ++ r.name ++ ",UID:" ++ r.uid ++ ",APIVersion:" ++ r.apiVersion ++
    ",ResourceVersion:" ++ r.resourceVersion ++ ",FieldPath:" ++ r.fieldPath ++ ",\x7d"

/-- Embedding of `storagev1alpha1.Workload`: object reference, read-only flag, nullable
replica count (`*int32`) and nullable attachment timestamp (`*metav1.Time`,
modelled as seconds). -/
structure Workload where
  ref : ObjectReference
  readOnly : Bool
  replicas : Option Int
  timestamp : Option Nat
deriving DecidableEq, Repr

/-- Embedding of `PersistentVolumeClaimRuntimeSpec`. -/
structure PVCRSpec where
  statuses : List ClaimStatus
  workloads : List Workload
  usageBytes : Int
  mountedNodes : List String
deriving DecidableEq, Repr

/-- Embedding of `PersistentVolumeClaimRuntime` (namespace/name metadata plus the spec). -/
structure PVCR where
  ns : String
  name : String
  spec : PVCRSpec
deriving DecidableEq, Repr

/-- Embedding of `sameWorkload` from `pkg/volume/util.go`: two workload entries are the
same when the string forms of their object references coincide. -/
def sameWorkload (w1 w2 : Workload) : Bool :=
  w1.ref.refString == w2.ref.refString

/-! ## Status computation (`getPVCStatus`, `pkg/volume/manager.go`) -/

/-- The `resizeConditions` map from `pkg/volume/manager.go`: membership test
for the two PVC resize condition types. -/
def resizeConditions (t : PVCConditionType) : Bool :=
  t == PVCConditionType.resizing || t == PVCConditionType.fileSystemResizePending

/-- One iteration of the condition loop at the end of `getPVCStatus`: a
condition contributes `Expanding` when its type is a resize condition and its
status is `True`. -/
def trueResizeCondition (c : PVCCondition) : Bool :=
  resizeConditions c.condType && (c.status == ConditionStatus.ctrue)

/-- The condition loop at the end of `getPVCStatus`: one `Expanding` entry is
appended per true resize condition. -/
def resizeStatuses (conds : List PVCCondition) : List ClaimStatus :=
  conds.filterMap (fun c => if trueResizeCondition c then some ClaimStatus.expanding else none)

/-- The guard `pvcr != nil && len(pvcr.Spec.Workloads) > 0` in
`getPVCStatus`. -/
def pvcrHasWorkloads : Option PVCR → Bool
  | some pvcr => decide (pvcr.spec.workloads.length > 0)
  | none => false

/-- Embedding of `getPVCStatus` from `pkg/volume/manager.go`.  The Go function returns a
`nil` error on every path, so the embedding returns the status list alone. -/
def getPVCStatus (pvc : PVC) (pv : Option PV) (pvcr : Option PVCR) : List ClaimStatus :=
  if pvc.deletionTimestamp.isSome then [ClaimStatus.deleting]
  else
    match pvc.phase with
    | ClaimPhase.pending => [ClaimStatus.creating]
    | ClaimPhase.lost => [ClaimStatus.lost]
    | ClaimPhase.bound =>
      match pv with
      | none => [ClaimStatus.lost]
      | some _ =>
        (if pvcrHasWorkloads pvcr then [ClaimStatus.inUse] else [ClaimStatus.available])
          ++ resizeStatuses pvc.conditions
    | ClaimPhase.other => resizeStatuses pvc.conditions

/-! ## Status replacement (`pkg/manager/controller.go`) -/

/-- The loop body of `replacePVCStatus`: skip entries equal to `oldStatus`,
keep the rest, and record whether a kept entry equals `newStatus`. -/
def replaceStep (oldStatus newStatus : ClaimStatus)
    (acc : List ClaimStatus × Bool) (status : ClaimStatus) : List ClaimStatus × Bool :=
  if status = oldStatus then acc
  else (acc.1 ++ [status], acc.2 || (status == newStatus))

/-- Embedding of `replacePVCStatus` from `pkg/manager/controller.go`: drop every entry
equal to `oldStatus`; append `newStatus` unless a kept entry already equals
it. -/
def replacePVCStatus (statuses : List ClaimStatus)
    (oldStatus newStatus : ClaimStatus) : List ClaimStatus :=
  let r := statuses.foldl (replaceStep oldStatus newStatus) ([], false)
  if r.2 then r.1 else r.1 ++ [newStatus]

/-- Embedding of `updatePVCStatus` from `pkg/manager/controller.go`: when both `workloads`
and `mountedNodes` are empty, replace `InUse` by `Available` in the status
list.  The Go function mutates its argument; the embedding returns the
updated PVCR. -/
def updatePVCStatus (pvcr : PVCR) : PVCR :=
  if pvcr.spec.workloads.length = 0 ∧ pvcr.spec.mountedNodes.length = 0 then
    { pvcr with spec := { pvcr.spec with
        statuses := replacePVCStatus pvcr.spec.statuses ClaimStatus.inUse ClaimStatus.available } }
  else pvcr

/-! ## Block-volume admission check (`pkg/volume/volume.go`) -/

/-- The guard `workload.Replicas != nil && *workload.Replicas > 1`. -/
def replicasGreaterThanOne : Option Int → Bool
  | some n => decide (n > 1)
  | none => false

/-- The loop over `pvcr.Spec.Workloads` in `blockVolumeAvailable`: reject
when some attached workload is not read-only. -/
def existingWritersCheck (pvcr : PVCR) : Option String :=
  if pvcr.spec.workloads.any (fun w => !w.readOnly) then
    some "CephRBD volume cannot be mounted as ReadWrite mode by more than one workload"
  else none

/-- Embedding of `blockVolumeAvailable` from `pkg/volume/volume.go`.  `none` models the
`nil` error (accept); `some msg` models the `BadRequest` rejection carrying
`msg`. -/
def blockVolumeAvailable (workload : Workload) (pvcr : PVCR) : Option String :=
  if workload.readOnly then none
  else
    match workload.replicas with
    | some n =>
      if n > 1 then
        some ("CephRBD volume cannot be mounted as ReadWrite mode by workloads with "
          ++ toString n ++ " replicas")
      else existingWritersCheck pvcr
    | none => existingWritersCheck pvcr

/-- Probe `cephRBDVolume.Available`, which delegates to `blockVolumeAvailable`
(`pkg/volume/ceph.go`). -/
def cephRBDAvailable (workload : Workload) (pvcr : PVCR) : Option String :=
  blockVolumeAvailable workload pvcr

/-- Probe `cbsVolume.Available`, which delegates to `blockVolumeAvailable`
(`pkg/volume/cbs.go`). -/
def cbsAvailable (workload : Workload) (pvcr : PVCR) : Option String :=
  blockVolumeAvailable workload pvcr

/-! ## `manager.Attach` (`pkg/volume/manager.go`) -/

/-- Outcome of `manager.Attach`: an error message, a `nil` return without an
API write (`ok none`, the dedup path), or a successful write of the new PVCR
(`ok (some p)`). -/
inductive AttachResult
  | err : String → AttachResult
  | ok : Option PVCR → AttachResult
deriving DecidableEq, Repr

/-- Embedding of `manager.Attach`.  The lister fetches of the PVC and PVCR are modelled by
passing the objects directly; `getVolume`'s driver dispatch is abstracted
into the `avail` parameter (the selected probe's `Available`), after the
`pv == nil` check that `getVolume` performs first. -/
def attach (avail : Workload → PVCR → Option String) (w : Workload)
    (pvc : PVC) (pv : Option PV) (pvcr : PVCR) : AttachResult :=
  match pv with
  | none => AttachResult.err "volume is still creating"
  | some _ =>
    if pvcr.spec.workloads.any (fun x => sameWorkload w x) then AttachResult.ok none
    else
      match avail w pvcr with
      | some msg => AttachResult.err msg
      | none =>
        let withW : PVCR :=
          { pvcr with spec := { pvcr.spec with workloads := pvcr.spec.workloads ++ [w] } }
        let statuses := getPVCStatus pvc pv (some withW)
        AttachResult.ok (some { withW with spec := { withW.spec with statuses := statuses } })

/-! ## Workload recycler (`pkg/manager/workload_recycler.go`) -/

/-- Grace window `workloadCheckDelay` (10 seconds). -/
def workloadCheckDelay : Nat := 10

/-- One iteration of the recycler loop deciding whether a workload entry is
kept.  `exist` models `workloadManager.Exist`; when it errors the entry is
conservatively treated as existing.  The timestamp check
`w.Timestamp.Time.Add(workloadCheckDelay).After(time.Now())` is only reached
when the existence test is false (Go `||` short-circuits); a `nil` timestamp
there would dereference a nil pointer, modelled as `none`. -/
def keepWorkload (exist : ObjectReference → Except Unit Bool) (now : Nat)
    (w : Workload) : Option Bool :=
  let e : Bool :=
    match exist w.ref with
    | Except.error _ => true
    | Except.ok b => b
  if e then some true
  else
    match w.timestamp with
    | some t => some (decide (t + workloadCheckDelay > now))
    | none => none

/-- The filtering loop of `workloadRecycler.syncPVCR`, keeping entries in
order. -/
def recycleWorkloads (exist : ObjectReference → Except Unit Bool) (now : Nat) :
    List Workload → Option (List Workload)
  | [] => some []
  | w :: ws => do
    let keep ← keepWorkload exist now w
    let rest ← recycleWorkloads exist now ws
    pure (if keep then w :: rest else rest)

/-- The decision part of `workloadRecycler.syncPVCR` after the PVCR is
fetched: filter the workload list; if the length is unchanged do nothing
(`none`), else write the PVCR with the filtered list and the
`InUse`/`Available` flip applied (`some newPVCR`). -/
def syncPVCR (exist : ObjectReference → Except Unit Bool) (now : Nat)
    (pvcr : PVCR) : Option (Option PVCR) := do
  let workloads ← recycleWorkloads exist now pvcr.spec.workloads
  if workloads.length = pvcr.spec.workloads.length then
    pure none
  else
    pure (some (updatePVCStatus { pvcr with spec := { pvcr.spec with workloads := workloads } }))

/-! ## Workload adapters (`pkg/workload`) -/

/-- Embedding of `*corev1.PersistentVolumeClaimVolumeSource` (`VolumeInfo` in
`pkg/workload`): claim name and read-only flag. -/
structure VolumeInfo where
  claimName : String
  readOnly : Bool
deriving DecidableEq, Repr

/-- One entry of `PodSpec.Volumes`; only the `PersistentVolumeClaim` source
is consulted. -/
structure PodVolume where
  pvc : Option VolumeInfo
deriving DecidableEq, Repr

/-- The part of `corev1.PodSpec` the adapters read. -/
structure PodSpec where
  volumes : List PodVolume
deriving DecidableEq, Repr

/-- Embedding of `extractVolumes` from `pkg/workload/util.go`: the claim references of a
pod spec, in order. -/
def extractVolumes (spec : PodSpec) : List VolumeInfo :=
  spec.volumes.filterMap (fun v => v.pvc)

/-- Embedding of `filterVolumes` from `pkg/workload/util.go`: the claim references of
`specs` whose claim name is not named by `filtered`. -/
def filterVolumes (filtered : List VolumeInfo) (specs : List PodSpec) : List VolumeInfo :=
  let filterSet := filtered.map (fun v => v.claimName)
  specs.foldl
    (fun acc spec =>
      acc ++ spec.volumes.filterMap (fun v =>
        match v.pvc with
        | some info => if filterSet.contains info.claimName then none else some info
        | none => none))
    []

/-- Admission operation (`admissionv1beta1.Operation`). -/
inductive Operation
  | create
  | update
  | delete
  | connect
deriving DecidableEq, Repr

/-- Values of `batchv1.JobConditionType`: `Complete`, `Failed` or any other value. -/
inductive JobConditionType
  | complete
  | failed
  | other
deriving DecidableEq, Repr

/-- One entry of `job.Status.Conditions`. -/
structure JobCondition where
  condType : JobConditionType
  status : ConditionStatus
deriving DecidableEq, Repr

/-- The attributes of a `batchv1.Job` read by the adapter. -/
structure Job where
  name : String
  ns : String
  uid : String
  parallelism : Option Int
  template : PodSpec
  conditions : List JobCondition
deriving DecidableEq, Repr

/-- Embedding of `jobFinished` from `pkg/workload/job.go`: some condition of type
`Complete` or `Failed` has status `True`. -/
def jobFinished (j : Job) : Bool :=
  j.conditions.any (fun c =>
    (c.condType == JobConditionType.complete || c.condType == JobConditionType.failed)
      && c.status == ConditionStatus.ctrue)

/-- Embedding of `jobManager.Handle` from `pkg/workload/job.go` after the two decode steps
(the raw objects of the admission request are modelled as already decoded;
`oldJob` is only consulted on the update path, as in the source).  On an
update of a finished job the source assigns `usedVolumes = nil` and then
`releasedVolumes = usedVolumes`, so both come back empty. -/
def jobHandle (op : Operation) (job oldJob : Job) :
    Workload × List VolumeInfo × List VolumeInfo :=
  let usedVolumes := extractVolumes job.template
  let ur : List VolumeInfo × List VolumeInfo :=
    if op = Operation.update then
      if jobFinished job then ([], [])
      else (usedVolumes, filterVolumes usedVolumes [oldJob.template])
    else (usedVolumes, [])
  (⟨{ apiVersion := "batch/v1", kind := "Job", ns := job.ns, name := job.name,
      uid := job.uid, resourceVersion := "", fieldPath := "" },
    false, job.parallelism, none⟩, ur.1, ur.2)

/-- Values of `tappv1.AppStatus`: the three terminal values plus `other` for the
rest. -/
inductive TAppStatus
  | succ
  | failed
  | killed
  | other
deriving DecidableEq, Repr

/-- The attributes of a `tappv1.TApp` read by the adapter.  `templates` is
the `Spec.Templates` map (instance id to template name) and `templatePool`
the `Spec.TemplatePool` map (template name to pod template). -/
structure TApp where
  name : String
  ns : String
  uid : String
  replicas : Int
  templates : List (String × String)
  templatePool : List (String × PodSpec)
  template : PodSpec
  appStatus : TAppStatus
deriving DecidableEq, Repr

/-- Embedding of `tappCompleted` from `pkg/workload/tapp.go` via the
`completedTappStatues` map. -/
def tappCompleted (tapp : TApp) : Bool :=
  match tapp.appStatus with
  | TAppStatus.succ => true
  | TAppStatus.failed => true
  | TAppStatus.killed => true
  | TAppStatus.other => false

/-- Insert into a sorted duplicate-free string list (the behaviour of
`sets.String`). -/
def insertString (x : String) : List String → List String
  | [] => [x]
  | y :: ys =>
    if x = y then y :: ys
    else if x < y then x :: y :: ys
    else y :: insertString x ys

/-- Behaviour of `sets.NewString(l...).List()`: the sorted duplicate-free list of `l`. -/
def sortedUniqueStrings (l : List String) : List String :=
  l.foldl (fun acc x => insertString x acc) []

/-- Go map indexing `tapp.Spec.TemplatePool[name].Spec`: a missing key yields
the zero value, i.e. an empty pod spec. -/
def lookupPodSpec (pool : List (String × PodSpec)) (n : String) : PodSpec :=
  match pool.find? (fun p => p.1 == n) with
  | some p => p.2
  | none => ⟨[]⟩

/-- Embedding of `extractTappPodSpecs` from `pkg/workload/tapp.go`: the pod specs of all
distinct template names in use, plus the default template when the instance
count exceeds the template count. -/
def extractTappPodSpecs (tapp : TApp) : List PodSpec :=
  let names := sortedUniqueStrings (tapp.templates.map (fun p => p.2))
  let specs := names.map (fun n => lookupPodSpec tapp.templatePool n)
  if (tapp.templates.length : Int) < tapp.replicas then specs ++ [tapp.template]
  else specs

/-- The used-volume accumulation loop of `tappManager.Handle`. -/
def tappUsedVolumes (tapp : TApp) : List VolumeInfo :=
  (extractTappPodSpecs tapp).foldl (fun acc spec => acc ++ extractVolumes spec) []

/-- Embedding of `tappManager.Handle` from `pkg/workload/tapp.go` after the decode steps.
On an update of a completed TApp the source assigns `usedVolumes = nil` and
then `releasedVolumes = usedVolumes`, so both come back empty.  On an update
of a running TApp the source decodes `oldTapp` but then filters against
`extractTappPodSpecs(tapp)` — the specs of the NEW object — so `oldTapp` is
never consulted. -/
def tappHandle (op : Operation) (tapp oldTapp : TApp) :
    Workload × List VolumeInfo × List VolumeInfo :=
  let usedVolumes := tappUsedVolumes tapp
  let ur : List VolumeInfo × List VolumeInfo :=
    if op = Operation.update then
      if tappCompleted tapp then ([], [])
      else (usedVolumes, filterVolumes usedVolumes (extractTappPodSpecs tapp))
    else (usedVolumes, [])
  (⟨{ apiVersion := "tke.cloud.tencent.com/v1", kind := "TApp", ns := tapp.ns,
      name := tapp.name, uid := tapp.uid, resourceVersion := "", fieldPath := "" },
    false, some 1, none⟩, ur.1, ur.2)

/-! ## `parseAddress` and the RBD host loops (`pkg/volume/util.go`,
`pkg/volume/ceph.go`) -/

/-- Behaviour of `strings.Index`: the first index of `c` in `l`, or `-1`. -/
def stringIndex (c : Char) (l : List Char) : Int :=
  match l.findIdx? (fun x => x = c) with
  | some i => (i : Int)
  | none => -1

/-- Embedding of `parseAddress` from `pkg/volume/util.go`:
`address[:strings.Index(address, ":")]`.  When the address contains no `':'`
the index is `-1` and the Go slice expression panics; that branch is the
`none` result. -/
def parseAddress (address : List Char) : Option (List Char) :=
  let i := stringIndex ':' address
  if i < 0 then none
  else some (address.take i.toNat)

/-- The host-collection loop shared by `listRBDWatchers` and
`listRBDLockers`: apply `parseAddress` to every decoded address, keeping the
non-empty results.  A fault of `parseAddress` faults the whole loop. -/
def collectRBDHosts : List (List Char) → Option (List (List Char))
  | [] => some []
  | a :: rest => do
    let host ← parseAddress a
    let others ← collectRBDHosts rest
    pure (if host.length > 0 then host :: others else others)

/-! ## Concrete fixtures used to instantiate the theorems -/

/-- Fixture PV. -/
def pvFixture : PV := ⟨"pv-1"⟩

/-- Fixture PVC: bound, live, no conditions. -/
def pvcBoundFixture : PVC := ⟨none, ClaimPhase.bound, []⟩

/-- Fixture PVCR with no workloads but one mounted node. -/
def pvcrMountedOnly : PVCR := ⟨"ns1", "a", ⟨[ClaimStatus.available], [], 0, ["node-1"]⟩⟩

/-- Fixture PVC carrying both resize conditions with status `True`. -/
def pvcBothResize : PVC :=
  ⟨none, ClaimPhase.bound,
    [⟨PVCConditionType.resizing, ConditionStatus.ctrue⟩,
     ⟨PVCConditionType.fileSystemResizePending, ConditionStatus.ctrue⟩]⟩

/-- Fixture object reference of a Deployment. -/
def refWeb : ObjectReference := ⟨"apps/v1", "Deployment", "ns1", "web", "uid-1", "", ""⟩

/-- Fixture workload for the attach theorems. -/
def wWeb : Workload := ⟨refWeb, false, some 1, some 5⟩

/-- Fixture PVCR already containing `wWeb`. -/
def pvcrWithWeb : PVCR := ⟨"ns1", "a", ⟨[ClaimStatus.inUse], [wWeb], 0, []⟩⟩

/-- Fixture PVCR with no workloads. -/
def pvcrEmpty : PVCR := ⟨"ns1", "a", ⟨[ClaimStatus.available], [], 0, []⟩⟩

/-- Fixture probe that accepts everything. -/
def availAccept : Workload → PVCR → Option String := fun _ _ => none

/-- Fixture read-only workload with two replicas. -/
def wReadOnly : Workload := ⟨refWeb, true, some 2, none⟩

/-- Fixture read-write workload with two replicas. -/
def wTwoReplicas : Workload := ⟨refWeb, false, some 2, none⟩

/-- Fixture read-write workload with one replica. -/
def wOneReplica : Workload := ⟨refWeb, false, some 1, none⟩

/-- Fixture PVCR whose attached workload is read-write. -/
def pvcrWriter : PVCR := ⟨"ns1", "a", ⟨[ClaimStatus.inUse], [wOneReplica], 0, []⟩⟩

/-- Fixture PVCR whose attached workload is read-only. -/
def pvcrReader : PVCR := ⟨"ns1", "a", ⟨[ClaimStatus.inUse], [wReadOnly], 0, []⟩⟩

/-- Fixture existence oracle for the recycler: `web` is gone, everything
else still exists. -/
def existFixture : ObjectReference → Except Unit Bool :=
  fun r => if r.name = "web" then Except.ok false else Except.ok true

/-- Fixture workload that still exists. -/
def wDb : Workload := ⟨⟨"apps/v1", "Deployment", "ns1", "db", "uid-2", "", ""⟩, false, some 1, some 5⟩

/-- Fixture PVCR holding a vanished and a live workload entry. -/
def pvcrRecycle : PVCR := ⟨"ns1", "a", ⟨[ClaimStatus.inUse], [wWeb, wDb], 0, []⟩⟩

/-- Fixture pod spec mounting claim `a`. -/
def podSpecA : PodSpec := ⟨[⟨some ⟨"a", false⟩⟩]⟩

/-- Fixture pod spec mounting claim `b`. -/
def podSpecB : PodSpec := ⟨[⟨some ⟨"b", false⟩⟩]⟩

/-- Fixture Job that is already complete and mounts claim `a`. -/
def jobDone : Job :=
  ⟨"j", "ns1", "u1", some 1, podSpecA,
    [⟨JobConditionType.complete, ConditionStatus.ctrue⟩]⟩

/-- Fixture TApp (previous revision) whose default template mounts claim
`a`. -/
def tappOld : TApp := ⟨"t", "ns1", "u1", 1, [], [], podSpecA, TAppStatus.other⟩

/-- Fixture TApp (new revision) whose default template mounts claim `b`. -/
def tappNew : TApp := ⟨"t", "ns1", "u1", 1, [], [], podSpecB, TAppStatus.other⟩

/-! ## Helper lemmas -/

/-- Every entry produced by the condition loop is `Expanding`. -/
theorem mem_resizeStatuses {s : ClaimStatus} {conds : List PVCCondition}
    (h : s ∈ resizeStatuses conds) : s = ClaimStatus.expanding := by
  simp only [resizeStatuses, List.mem_filterMap] at h
  obtain ⟨c, _, hc⟩ := h
  by_cases ht : trueResizeCondition c
  · simp [ht] at hc
    exact hc.symm
  · simp [ht] at hc

/-- The condition loop yields one `Expanding` per true resize condition. -/
theorem resizeStatuses_eq_map (conds : List PVCCondition) :
    resizeStatuses conds =
      (conds.filter trueResizeCondition).map (fun _ => ClaimStatus.expanding) := by
  induction conds with
  | nil => rfl
  | cons c rest ih =>
    by_cases hc : trueResizeCondition c
    · simp [resizeStatuses, List.filterMap_cons, List.filter_cons, hc] at ih ⊢
      exact ih
    · simp [resizeStatuses, List.filterMap_cons, List.filter_cons, hc] at ih ⊢
      exact ih

/-! ## C2 -/

/-- C2: the status function obeys the exception precedence: a deletion
timestamp yields exactly `[Deleting]`; otherwise phase `Pending` yields
exactly `[Creating]`; otherwise phase `Lost`, or phase `Bound` with a missing
PV, yields exactly `[Lost]`. -/
theorem getPVCStatus_exception_precedence (pvc : PVC) (pv : Option PV) (pvcr : Option PVCR) :
    (pvc.deletionTimestamp.isSome = true →
      getPVCStatus pvc pv pvcr = [ClaimStatus.deleting]) ∧
    (pvc.deletionTimestamp = none → pvc.phase = ClaimPhase.pending →
      getPVCStatus pvc pv pvcr = [ClaimStatus.creating]) ∧
    (pvc.deletionTimestamp = none →
      (pvc.phase = ClaimPhase.lost ∨ (pvc.phase = ClaimPhase.bound ∧ pv = none)) →
      getPVCStatus pvc pv pvcr = [ClaimStatus.lost]) := by
  refine ⟨fun h => by simp [getPVCStatus, h], fun h1 h2 => by simp [getPVCStatus, h1, h2], ?_⟩
  intro h1 h2
  rcases h2 with h2 | ⟨h2, h3⟩
  · simp [getPVCStatus, h1, h2]
  · simp [getPVCStatus, h1, h2, h3]

/-- Witness for C2 at concrete inputs. -/
theorem getPVCStatus_exception_precedence_witness :
    getPVCStatus ⟨some 1, ClaimPhase.bound, []⟩ none none = [ClaimStatus.deleting] ∧
    getPVCStatus ⟨none, ClaimPhase.pending, []⟩ none none = [ClaimStatus.creating] ∧
    getPVCStatus ⟨none, ClaimPhase.bound, []⟩ none none = [ClaimStatus.lost] := by
  refine ⟨?_, ?_, ?_⟩
  · exact (getPVCStatus_exception_precedence ⟨some 1, ClaimPhase.bound, []⟩ none none).1 (by decide)
  · exact (getPVCStatus_exception_precedence ⟨none, ClaimPhase.pending, []⟩ none none).2.1 rfl rfl
  · exact (getPVCStatus_exception_precedence ⟨none, ClaimPhase.bound, []⟩ none none).2.2 rfl
      (Or.inr ⟨rfl, rfl⟩)

/-! ## C1 -/

/-- C1, counterexample: for a bound, live PVC whose PVCR has no workloads but
a non-empty `mountedNodes` list, the computed statuses are `[Available]`, so
`InUse` membership is NOT equivalent to "workloads non-empty OR mountedNodes
non-empty": `getPVCStatus` never consults `mountedNodes`. -/
theorem getPVCStatus_inuse_iff_counterexample :
    ¬ ((ClaimStatus.inUse ∈ getPVCStatus pvcBoundFixture (some pvFixture) (some pvcrMountedOnly)) ↔
      (pvcrMountedOnly.spec.workloads ≠ [] ∨ pvcrMountedOnly.spec.mountedNodes ≠ [])) := by
  decide

/-- C1, amended: for every status computation over a bound PVC with an
existing PV and no deletion timestamp, `InUse` is present iff the PVCR exists
and its workloads list is non-empty; otherwise `Available` is present (the
`mountedNodes` list plays no role). -/
theorem getPVCStatus_inuse_iff_workloads (pvc : PVC) (pv : PV) (pvcr : Option PVCR)
    (hdel : pvc.deletionTimestamp = none) (hphase : pvc.phase = ClaimPhase.bound) :
    ((ClaimStatus.inUse ∈ getPVCStatus pvc (some pv) pvcr) ↔ pvcrHasWorkloads pvcr = true) ∧
    (pvcrHasWorkloads pvcr = false →
      ClaimStatus.available ∈ getPVCStatus pvc (some pv) pvcr ∧
      ClaimStatus.inUse ∉ getPVCStatus pvc (some pv) pvcr) := by
  have hres : ClaimStatus.inUse ∉ resizeStatuses pvc.conditions := by
    intro h
    exact absurd (mem_resizeStatuses h) (by decide)
  cases hb : pvcrHasWorkloads pvcr with
  | true =>
    constructor
    · simp [getPVCStatus, hdel, hphase, hb]
    · intro hfalse
      cases hfalse
  | false =>
    constructor
    · simp only [getPVCStatus, hdel, hphase, hb]
      simp [List.mem_append]
      intro h
      exact hres h
    · intro _
      constructor
      · simp [getPVCStatus, hdel, hphase, hb, List.mem_append]
      · simp only [getPVCStatus, hdel, hphase, hb]
        simp [List.mem_append]
        intro h
        exact hres h

/-- Witness for C1 (amended) at concrete inputs. -/
theorem getPVCStatus_inuse_iff_workloads_witness :
    ((ClaimStatus.inUse ∈
        getPVCStatus pvcBoundFixture (some pvFixture) (some pvcrMountedOnly)) ↔
      pvcrHasWorkloads (some pvcrMountedOnly) = true) ∧
    (pvcrHasWorkloads (some pvcrMountedOnly) = false →
      ClaimStatus.available ∈
          getPVCStatus pvcBoundFixture (some pvFixture) (some pvcrMountedOnly) ∧
      ClaimStatus.inUse ∉
          getPVCStatus pvcBoundFixture (some pvFixture) (some pvcrMountedOnly)) :=
  getPVCStatus_inuse_iff_workloads pvcBoundFixture pvFixture (some pvcrMountedOnly) rfl rfl

/-! ## C9 -/

/-- C9, counterexample: when both `Resizing` and `FileSystemResizePending`
are simultaneously true, the condition loop appends `Expanding` twice and the
statuses list contains a duplicate. -/
theorem getPVCStatus_nodup_counterexample :
    ¬ (getPVCStatus pvcBothResize (some pvFixture) none).Nodup := by
  decide

/-- C9, amended: the statuses list contains no duplicates provided at most
one of the PVC's conditions is a resize condition with status `True` (the
code appends one `Expanding` per true resize condition, so two simultaneous
true resize conditions yield two `Expanding` entries). -/
theorem getPVCStatus_nodup_amended (pvc : PVC) (pv : Option PV) (pvcr : Option PVCR)
    (h : (pvc.conditions.filter trueResizeCondition).length ≤ 1) :
    (getPVCStatus pvc pv pvcr).Nodup := by
  have hform : resizeStatuses pvc.conditions = [] ∨
      resizeStatuses pvc.conditions = [ClaimStatus.expanding] := by
    rw [resizeStatuses_eq_map]
    cases hf : pvc.conditions.filter trueResizeCondition with
    | nil => exact Or.inl rfl
    | cons a t =>
      cases t with
      | nil => exact Or.inr rfl
      | cons b t2 => simp [hf] at h
  unfold getPVCStatus
  by_cases hdel : pvc.deletionTimestamp.isSome
  · simp [hdel]
  · simp only [hdel, if_false, Bool.false_eq_true]
    cases pvc.phase with
    | pending => simp
    | lost => simp
    | other =>
      rcases hform with hr | hr <;> simp [hr]
    | bound =>
      cases pv with
      | none => simp
      | some _ =>
        rcases hform with hr | hr <;>
          cases hb : pvcrHasWorkloads pvcr <;> simp [hr, hb]

/-- Witness for C9 (amended) at concrete inputs. -/
theorem getPVCStatus_nodup_amended_witness :
    (((⟨none, ClaimPhase.bound,
        [⟨PVCConditionType.resizing, ConditionStatus.ctrue⟩]⟩ : PVC).conditions.filter
          trueResizeCondition).length ≤ 1) ∧
    (getPVCStatus ⟨none, ClaimPhase.bound,
        [⟨PVCConditionType.resizing, ConditionStatus.ctrue⟩]⟩ (some pvFixture) none).Nodup :=
  ⟨by decide,
    getPVCStatus_nodup_amended ⟨none, ClaimPhase.bound,
      [⟨PVCConditionType.resizing, ConditionStatus.ctrue⟩]⟩ (some pvFixture) none (by decide)⟩

/-! ## C3 -/

/-- C3: the block-semantics availability check (shared by the RBD and CBS
probes) accepts a read-only workload; otherwise it rejects with the replicas
message when the replicas pointer is non-null and greater than 1; otherwise
it rejects when some attached workload is read-write; and accepts in all
remaining cases. -/
theorem blockVolumeAvailable_spec (w : Workload) (pvcr : PVCR) :
    (cephRBDAvailable w pvcr = blockVolumeAvailable w pvcr) ∧
    (cbsAvailable w pvcr = blockVolumeAvailable w pvcr) ∧
    (w.readOnly = true → blockVolumeAvailable w pvcr = none) ∧
    (∀ n : Int, w.readOnly = false → w.replicas = some n → n > 1 →
      blockVolumeAvailable w pvcr =
        some ("CephRBD volume cannot be mounted as ReadWrite mode by workloads with "
          ++ toString n ++ " replicas")) ∧
    (w.readOnly = false → replicasGreaterThanOne w.replicas = false →
      (∃ x ∈ pvcr.spec.workloads, x.readOnly = false) →
      blockVolumeAvailable w pvcr =
        some "CephRBD volume cannot be mounted as ReadWrite mode by more than one workload") ∧
    (w.readOnly = false → replicasGreaterThanOne w.replicas = false →
      (∀ x ∈ pvcr.spec.workloads, x.readOnly = true) →
      blockVolumeAvailable w pvcr = none) := by
  have hwriters_pos : (∃ x ∈ pvcr.spec.workloads, x.readOnly = false) →
      existingWritersCheck pvcr =
        some "CephRBD volume cannot be mounted as ReadWrite mode by more than one workload" := by
    intro ⟨x, hx, hro⟩
    have : pvcr.spec.workloads.any (fun w => !w.readOnly) = true :=
      List.any_eq_true.mpr ⟨x, hx, by simp [hro]⟩
    simp [existingWritersCheck, this]
  have hwriters_neg : (∀ x ∈ pvcr.spec.workloads, x.readOnly = true) →
      existingWritersCheck pvcr = none := by
    intro hall
    have : pvcr.spec.workloads.any (fun w => !w.readOnly) = false := by
      simp only [List.any_eq_false]
      intro x hx
      simp [hall x hx]
    simp [existingWritersCheck, this]
  refine ⟨rfl, rfl, fun h => by simp [blockVolumeAvailable, h], ?_, ?_, ?_⟩
  · intro n hro hrep hgt
    simp [blockVolumeAvailable, hro, hrep, hgt]
  · intro hro hrep hex
    rcases hr : w.replicas with _ | n
    · simp [blockVolumeAvailable, hro, hr, hwriters_pos hex]
    · have hle : ¬ (n > 1) := by
        rw [hr] at hrep
        simpa [replicasGreaterThanOne] using hrep
      simp [blockVolumeAvailable, hro, hr, hle, hwriters_pos hex]
  · intro hro hrep hall
    rcases hr : w.replicas with _ | n
    · simp [blockVolumeAvailable, hro, hr, hwriters_neg hall]
    · have hle : ¬ (n > 1) := by
        rw [hr] at hrep
        simpa [replicasGreaterThanOne] using hrep
      simp [blockVolumeAvailable, hro, hr, hle, hwriters_neg hall]

/-- Witness for C3 at concrete inputs: the read-only accept, the 2-replica
rejection with its exact message, the existing-writer rejection and the
accept case. -/
theorem blockVolumeAvailable_spec_witness :
    blockVolumeAvailable wReadOnly pvcrWriter = none ∧
    blockVolumeAvailable wTwoReplicas pvcrEmpty =
      some "CephRBD volume cannot be mounted as ReadWrite mode by workloads with 2 replicas" ∧
    blockVolumeAvailable wOneReplica pvcrWriter =
      some "CephRBD volume cannot be mounted as ReadWrite mode by more than one workload" ∧
    blockVolumeAvailable wOneReplica pvcrReader = none := by
  refine ⟨?_, ?_, ?_, ?_⟩
  · exact (blockVolumeAvailable_spec wReadOnly pvcrWriter).2.2.1 rfl
  · have h := (blockVolumeAvailable_spec wTwoReplicas pvcrEmpty).2.2.2.1 2 rfl rfl (by decide)
    simpa using h
  · exact (blockVolumeAvailable_spec wOneReplica pvcrWriter).2.2.2.2.1 rfl (by decide)
      ⟨wOneReplica, by decide, rfl⟩
  · exact (blockVolumeAvailable_spec wOneReplica pvcrReader).2.2.2.2.2 rfl (by decide)
      (by decide)

/-! ## C7 -/

/-- Accumulator-generalised description of the `replacePVCStatus` loop. -/
theorem replaceStep_foldl (oldS newS : ClaimStatus) (l : List ClaimStatus)
    (acc : List ClaimStatus) (b : Bool) :
    l.foldl (replaceStep oldS newS) (acc, b) =
      (acc ++ l.filter (fun s => s ≠ oldS),
        b || (l.filter (fun s => s ≠ oldS)).any (fun s => s == newS)) := by
  induction l generalizing acc b with
  | nil => simp
  | cons s rest ih =>
    by_cases hs : s = oldS
    · simp only [List.foldl_cons, replaceStep, hs, if_pos rfl, List.filter_cons]
      simp [ih]
    · simp only [List.foldl_cons, replaceStep, if_neg hs, List.filter_cons]
      rw [ih]
      simp [hs, Bool.or_assoc]

/-- Closed form of `replacePVCStatus`: keep the entries different from
`oldStatus`; append `newStatus` iff it is not already among them. -/
theorem replacePVCStatus_eq (l : List ClaimStatus) (oldS newS : ClaimStatus) :
    replacePVCStatus l oldS newS =
      (if newS ∈ l.filter (fun s => s ≠ oldS) then l.filter (fun s => s ≠ oldS)
        else l.filter (fun s => s ≠ oldS) ++ [newS]) := by
  unfold replacePVCStatus
  rw [replaceStep_foldl]
  simp only [List.nil_append, Bool.false_or]
  by_cases h : newS ∈ l.filter (fun s => s ≠ oldS)
  · have : (l.filter (fun s => s ≠ oldS)).any (fun s => s == newS) = true :=
      List.any_eq_true.mpr ⟨newS, h, by simp⟩
    simp [this, h]
  · have : (l.filter (fun s => s ≠ oldS)).any (fun s => s == newS) = false := by
      simp only [List.any_eq_false]
      intro x hx
      simp only [beq_iff_eq]
      intro he
      exact h (he ▸ hx)
    simp [this, h]

/-- Result of the InUse-to-Available replacement never contains `InUse`. -/
theorem inUse_not_mem_replace (l : List ClaimStatus) :
    ClaimStatus.inUse ∉ replacePVCStatus l ClaimStatus.inUse ClaimStatus.available := by
  rw [replacePVCStatus_eq]
  by_cases h : ClaimStatus.available ∈ l.filter (fun s => s ≠ ClaimStatus.inUse)
  · rw [if_pos h]
    intro hmem
    have := List.of_mem_filter hmem
    simp at this
  · rw [if_neg h]
    intro hmem
    rcases List.mem_append.mp hmem with hmem | hmem
    · have := List.of_mem_filter hmem
      simp at this
    · simp at hmem

/-- Result of the InUse-to-Available replacement always contains
`Available`. -/
theorem available_mem_replace (l : List ClaimStatus) :
    ClaimStatus.available ∈ replacePVCStatus l ClaimStatus.inUse ClaimStatus.available := by
  rw [replacePVCStatus_eq]
  by_cases h : ClaimStatus.available ∈ l.filter (fun s => s ≠ ClaimStatus.inUse)
  · rw [if_pos h]
    exact h
  · rw [if_neg h]
    exact List.mem_append_right _ (List.mem_singleton_self _)

/-- Replacement is the identity on a list that already lacks `InUse` and
contains `Available`. -/
theorem replace_fixed (l : List ClaimStatus)
    (h1 : ClaimStatus.inUse ∉ l) (h2 : ClaimStatus.available ∈ l) :
    replacePVCStatus l ClaimStatus.inUse ClaimStatus.available = l := by
  have hfil : l.filter (fun s => s ≠ ClaimStatus.inUse) = l := by
    apply List.filter_eq_self.mpr
    intro a ha
    exact decide_eq_true (fun he => h1 (he ▸ ha))
  rw [replacePVCStatus_eq, hfil, if_pos h2]

/-- C7: the InUse-to-Available status replacement removes every `InUse`
entry, keeps the others, and appends `Available` only when it is not already
among the remaining entries; applying the flip to a PVCR whose workloads and
mounted nodes are both empty is a fixed point. -/
theorem replacePVCStatus_flip_spec (statuses : List ClaimStatus) (pvcr : PVCR) :
    (replacePVCStatus statuses ClaimStatus.inUse ClaimStatus.available =
      (if ClaimStatus.available ∈ statuses.filter (fun s => s ≠ ClaimStatus.inUse)
        then statuses.filter (fun s => s ≠ ClaimStatus.inUse)
        else statuses.filter (fun s => s ≠ ClaimStatus.inUse) ++ [ClaimStatus.available])) ∧
    (pvcr.spec.workloads = [] → pvcr.spec.mountedNodes = [] →
      updatePVCStatus (updatePVCStatus pvcr) = updatePVCStatus pvcr) := by
  refine ⟨replacePVCStatus_eq statuses ClaimStatus.inUse ClaimStatus.available, ?_⟩
  intro hw hm
  have h2 := replace_fixed
    (replacePVCStatus pvcr.spec.statuses ClaimStatus.inUse ClaimStatus.available)
    (inUse_not_mem_replace _) (available_mem_replace _)
  unfold updatePVCStatus
  simp [hw, hm, h2]

/-- Witness for C7 at concrete inputs. -/
theorem replacePVCStatus_flip_spec_witness :
    (replacePVCStatus [ClaimStatus.inUse, ClaimStatus.expanding]
        ClaimStatus.inUse ClaimStatus.available =
      (if ClaimStatus.available ∈
          [ClaimStatus.inUse, ClaimStatus.expanding].filter (fun s => s ≠ ClaimStatus.inUse)
        then [ClaimStatus.inUse, ClaimStatus.expanding].filter (fun s => s ≠ ClaimStatus.inUse)
        else [ClaimStatus.inUse, ClaimStatus.expanding].filter (fun s => s ≠ ClaimStatus.inUse)
          ++ [ClaimStatus.available])) ∧
    (pvcrEmpty.spec.workloads = [] → pvcrEmpty.spec.mountedNodes = [] →
      updatePVCStatus (updatePVCStatus pvcrEmpty) = updatePVCStatus pvcrEmpty) :=
  replacePVCStatus_flip_spec [ClaimStatus.inUse, ClaimStatus.expanding] pvcrEmpty

/-! ## C6 -/

/-- C6: `Attach` is idempotent under object-reference string equality.  When
the PVCR's workloads list already holds an entry with the same string form of
the object reference, `Attach` returns success (`ok none`) without an API
write; consequently, after a successful attach that appended the workload, a
second attach of the same workload succeeds without a second append. -/
theorem attach_dedup_idempotent (avail : Workload → PVCR → Option String)
    (w : Workload) (pvc : PVC) (pv : PV) (pvcr : PVCR) :
    ((∃ x ∈ pvcr.spec.workloads, sameWorkload w x = true) →
      attach avail w pvc (some pv) pvcr = AttachResult.ok none) ∧
    (∀ p : PVCR, attach avail w pvc (some pv) pvcr = AttachResult.ok (some p) →
      p.spec.workloads = pvcr.spec.workloads ++ [w] ∧
      attach avail w pvc (some pv) p = AttachResult.ok none) := by
  constructor
  · intro ⟨x, hx, hsame⟩
    have hany : pvcr.spec.workloads.any (fun x => sameWorkload w x) = true :=
      List.any_eq_true.mpr ⟨x, hx, hsame⟩
    simp [attach, hany]
  · intro p hp
    unfold attach at hp
    by_cases hany : pvcr.spec.workloads.any (fun x => sameWorkload w x) = true
    · simp [hany] at hp
    · simp only [Bool.not_eq_true] at hany
      rcases hav : avail w pvcr with _ | msg
      · simp only [hany, Bool.false_eq_true, if_false, hav] at hp
        have hpw : p.spec.workloads = pvcr.spec.workloads ++ [w] := by
          have := (AttachResult.ok.injEq _ _).mp hp
          have hp2 := Option.some.inj this
          rw [← hp2]
        refine ⟨hpw, ?_⟩
        have hself : sameWorkload w w = true := by
          simp [sameWorkload]
        have hany2 : p.spec.workloads.any (fun x => sameWorkload w x) = true := by
          apply List.any_eq_true.mpr
          exact ⟨w, by rw [hpw]; exact List.mem_append_right _ (List.mem_singleton_self _), hself⟩
        simp [attach, hany2]
      · simp [hany, hav] at hp

/-- Witness for C6 at concrete inputs: the dedup return on a PVCR already
holding the workload, and the two-step idempotence starting from an empty
PVCR. -/
theorem attach_dedup_idempotent_witness :
    ((∃ x ∈ pvcrWithWeb.spec.workloads, sameWorkload wWeb x = true) ∧
      attach availAccept wWeb pvcBoundFixture (some pvFixture) pvcrWithWeb =
        AttachResult.ok none) ∧
    ((⟨"ns1", "a", ⟨[ClaimStatus.inUse], [wWeb], 0, []⟩⟩ : PVCR).spec.workloads =
        pvcrEmpty.spec.workloads ++ [wWeb] ∧
      attach availAccept wWeb pvcBoundFixture (some pvFixture)
          ⟨"ns1", "a", ⟨[ClaimStatus.inUse], [wWeb], 0, []⟩⟩ = AttachResult.ok none) :=
  ⟨⟨⟨wWeb, by decide, by decide⟩,
    (attach_dedup_idempotent availAccept wWeb pvcBoundFixture pvFixture pvcrWithWeb).1
      ⟨wWeb, by decide, by decide⟩⟩,
   (attach_dedup_idempotent availAccept wWeb pvcBoundFixture pvFixture pvcrEmpty).2
     ⟨"ns1", "a", ⟨[ClaimStatus.inUse], [wWeb], 0, []⟩⟩ (by decide)⟩

/-! ## C8 -/

/-- The recycler filtering loop succeeds and equals a plain filter when every
entry carries a timestamp. -/
theorem recycleWorkloads_eq_filter (exist : ObjectReference → Except Unit Bool) (now : Nat)
    (ws : List Workload) (hts : ∀ w ∈ ws, w.timestamp ≠ none) :
    recycleWorkloads exist now ws =
      some (ws.filter (fun w => (keepWorkload exist now w).getD false)) := by
  induction ws with
  | nil => rfl
  | cons w rest ih =>
    have hw : w.timestamp ≠ none := hts w (List.mem_cons_self _ _)
    have hkeep : ∃ b, keepWorkload exist now w = some b := by
      unfold keepWorkload
      rcases exist w.ref with e | b
      · exact ⟨true, rfl⟩
      · cases b
        · rcases ht : w.timestamp with _ | t
          · exact absurd ht hw
          · exact ⟨decide (t + workloadCheckDelay > now), by simp [ht]⟩
        · exact ⟨true, rfl⟩
    obtain ⟨b, hb⟩ := hkeep
    have hrest := ih (fun x hx => hts x (List.mem_cons_of_mem _ hx))
    cases b
    · simp [recycleWorkloads, hb, hrest, List.filter_cons]
    · simp [recycleWorkloads, hb, hrest, List.filter_cons]

/-- C8: a workload entry is kept exactly when the existence check reports it
alive, or the check itself errors (conservative keep), or its attachment
timestamp is within the 10-second grace window; and the recycler performs no
API update exactly when the filtered list has the original length, otherwise
it writes the filtered list with the status flip applied. -/
theorem syncPVCR_recycle_spec (exist : ObjectReference → Except Unit Bool) (now : Nat)
    (pvcr : PVCR) (hts : ∀ w ∈ pvcr.spec.workloads, w.timestamp ≠ none) :
    (∀ w : Workload,
      keepWorkload exist now w = some true ↔
        ((∃ e, exist w.ref = Except.error e) ∨ exist w.ref = Except.ok true ∨
          (∃ t, w.timestamp = some t ∧ t + workloadCheckDelay > now))) ∧
    (syncPVCR exist now pvcr = some none ↔
      (pvcr.spec.workloads.filter (fun w => (keepWorkload exist now w).getD false)).length =
        pvcr.spec.workloads.length) ∧
    (∀ p : PVCR, syncPVCR exist now pvcr = some (some p) →
      p = updatePVCStatus { pvcr with spec := { pvcr.spec with
        workloads :=
          pvcr.spec.workloads.filter (fun w => (keepWorkload exist now w).getD false) } }) := by
  have hrec := recycleWorkloads_eq_filter exist now pvcr.spec.workloads hts
  refine ⟨?_, ?_, ?_⟩
  · intro w
    unfold keepWorkload
    rcases he : exist w.ref with e | b
    · simp [he]
    · cases b
      · rcases ht : w.timestamp with _ | t
        · simp [he, ht]
        · simp [he, ht]
      · simp [he]
  · unfold syncPVCR
    rw [hrec]
    by_cases hlen :
        (pvcr.spec.workloads.filter (fun w => (keepWorkload exist now w).getD false)).length =
          pvcr.spec.workloads.length
    · simp [hlen]
    · simp [hlen]
  · intro p hp
    unfold syncPVCR at hp
    rw [hrec] at hp
    by_cases hlen :
        (pvcr.spec.workloads.filter (fun w => (keepWorkload exist now w).getD false)).length =
          pvcr.spec.workloads.length
    · simp [hlen] at hp
    · simp only [Option.bind_eq_bind, Option.some_bind, hlen, if_false] at hp
      have := Option.some.inj hp
      exact (Option.some.inj this).symm

/-- Witness for C8 at a concrete input: `web` has vanished and its timestamp
is stale, so the recycler drops it and writes the filtered list. -/
theorem syncPVCR_recycle_spec_witness :
    (∀ w ∈ pvcrRecycle.spec.workloads, w.timestamp ≠ none) ∧
    (∀ p : PVCR, syncPVCR existFixture 100 pvcrRecycle = some (some p) →
      p = updatePVCStatus { pvcrRecycle with spec := { pvcrRecycle.spec with
        workloads := pvcrRecycle.spec.workloads.filter
          (fun w => (keepWorkload existFixture 100 w).getD false) } }) :=
  ⟨by decide,
    (syncPVCR_recycle_spec existFixture 100 pvcrRecycle (by decide)).2.2⟩

/-! ## C10 -/

/-- First-index characterisation: when `':'` occurs in the list, `findIdx?`
yields an index whose prefix is exactly the take-while prefix before the
first `':'`. -/
theorem findIdx_colon_take (l : List Char) (h : ':' ∈ l) :
    ∃ i, l.findIdx? (fun x => x = ':') = some i ∧
      l.take i = l.takeWhile (fun x => x ≠ ':') := by
  induction l with
  | nil => simp at h
  | cons c rest ih =>
    by_cases hc : c = ':'
    · refine ⟨0, ?_, ?_⟩
      · rw [List.findIdx?_cons]
        simp [hc]
      · simp [List.takeWhile_cons, hc]
    · have h' : ':' ∈ rest := by
        rcases List.mem_cons.mp h with he | hm
        · exact absurd he.symm hc
        · exact hm
      obtain ⟨i, hi, ht⟩ := ih h'
      refine ⟨i + 1, ?_, ?_⟩
      · rw [List.findIdx?_cons]
        simp [hc, hi]
      · simp [List.takeWhile_cons, hc, List.take_succ_cons, ht]

/-- When `':'` does not occur, `findIdx?` reports `none`. -/
theorem findIdx_colon_none (l : List Char) (h : ':' ∉ l) :
    l.findIdx? (fun x => x = ':') = none := by
  induction l with
  | nil => rfl
  | cons c rest ih =>
    have hc : ¬ (c = ':') := fun he => h (he ▸ List.mem_cons_self _ _)
    have h' : ':' ∉ rest := fun hm => h (List.mem_cons_of_mem _ hm)
    rw [List.findIdx?_cons]
    simp [hc, ih h']

/-- C10: `parseAddress` is partial.  For every address containing a `':'` it
returns the prefix before the first `':'`; for an address without `':'` the
Go slice expression `address[:-1]` panics — the error branch of the total
embedding — and the host-collection loop of the RBD `MountedNodes` path
(`listRBDWatchers` / `listRBDLockers`) faults as soon as one of the decoded
addresses lacks a `':'`. -/
theorem parseAddress_partial_spec :
    (∀ l : List Char, ':' ∈ l →
      parseAddress l = some (l.takeWhile (fun x => x ≠ ':'))) ∧
    (∀ l : List Char, ':' ∉ l → parseAddress l = none) ∧
    (∀ addrs : List (List Char), (∃ a ∈ addrs, ':' ∉ a) →
      collectRBDHosts addrs = none) := by
  have h1 : ∀ l : List Char, ':' ∈ l →
      parseAddress l = some (l.takeWhile (fun x => x ≠ ':')) := by
    intro l h
    obtain ⟨i, hi, ht⟩ := findIdx_colon_take l h
    unfold parseAddress stringIndex
    rw [hi]
    have : ¬ ((i : Int) < 0) := by
      simp
    simp [this, ht]
  have h2 : ∀ l : List Char, ':' ∉ l → parseAddress l = none := by
    intro l h
    unfold parseAddress stringIndex
    rw [findIdx_colon_none l h]
    simp
  refine ⟨h1, h2, ?_⟩
  intro addrs
  induction addrs with
  | nil => rintro ⟨a, ha, _⟩; simp at ha
  | cons a rest ih =>
    rintro ⟨x, hx, hcolon⟩
    rcases List.mem_cons.mp hx with he | hm
    · subst he
      simp [collectRBDHosts, h2 x hcolon]
    · unfold collectRBDHosts
      rcases hp : parseAddress a with _ | host
      · simp
      · simp only [Option.bind_eq_bind, Option.some_bind, hp]
        rw [ih ⟨x, hm, hcolon⟩]
        rfl

/-- Witness for C10 at concrete inputs: an `ip:port` address parses to the
ip, a bare hostname faults, and a watcher list containing the bare hostname
faults the whole loop. -/
theorem parseAddress_partial_spec_witness :
    parseAddress [Char.ofNat 49, ':', Char.ofNat 54] =
      some ([Char.ofNat 49, ':', Char.ofNat 54].takeWhile (fun x => x ≠ ':')) ∧
    parseAddress [Char.ofNat 49, Char.ofNat 54] = none ∧
    collectRBDHosts [[Char.ofNat 49, ':', Char.ofNat 54], [Char.ofNat 49, Char.ofNat 54]] =
      none := by
  refine ⟨?_, ?_, ?_⟩
  · exact parseAddress_partial_spec.1 [Char.ofNat 49, ':', Char.ofNat 54] (by decide)
  · exact parseAddress_partial_spec.2.1 [Char.ofNat 49, Char.ofNat 54] (by decide)
  · exact parseAddress_partial_spec.2.2
      [[Char.ofNat 49, ':', Char.ofNat 54], [Char.ofNat 49, Char.ofNat 54]]
      ⟨[Char.ofNat 49, Char.ofNat 54], by decide, by decide⟩

/-! ## C4 -/

/-- C4, code evaluation at the failing input: on an Update of an already
complete Job whose template mounts claim `a`, `Handle` returns `used = ∅` as
the claim states, but `released = ∅` as well — not the old revision's claim
set, because the source assigns `usedVolumes = nil` before
`releasedVolumes = usedVolumes`. -/
theorem jobHandle_terminal_released_empty :
    (jobHandle Operation.update jobDone jobDone).2.1 = [] ∧
    (jobHandle Operation.update jobDone jobDone).2.2 = [] ∧
    extractVolumes jobDone.template = [⟨"a", false⟩] := by
  decide

/-! ## C5 -/

/-- C5, code evaluation at the failing input: on an Update of a running TApp
whose old default template mounts claim `a` and whose new one mounts claim
`b`, `Handle` returns `released = ∅` because the source filters against the
NEW object's pod specs (the decoded old revision is never consulted), while
`claims(old) − claims(new)` is `[a]`. -/
theorem tappHandle_update_released_empty :
    (tappHandle Operation.update tappNew tappOld).2.2 = [] ∧
    filterVolumes (tappUsedVolumes tappNew) (extractTappPodSpecs tappOld) =
      [⟨"a", false⟩] := by
  decide

end VolumeDecorator
